import Mathlib

/-!
Verification of the ig-downloader extraction pipeline against its
specification.  The definitions below are a shallow embedding of the
TypeScript sources `lib/instagram-cdn.ts`, `lib/media.ts` and
`lib/instagram.ts` (the cascade/extraction module).  Network calls
(`fetch`), the base64/JSON `efg`-tag decoder, the HTML/JSON script
scanner (cheerio) and `JSON.parse` are modelled as explicit oracle
parameters; all control flow and pure computation is translated
verbatim from the source.  JavaScript `number`s holding pixel sizes and
HTTP statuses are modelled as `Nat` (all values involved are small,
non-negative integers, far below any double-precision boundary);
`Math.round` of the non-negative rational `a / b` is modelled exactly as
`(2 * a + b) / (2 * b)` in natural division.
-/

namespace IGDL

/-- Pixel dimensions, `{ width, height }` objects in the source. -/
structure Dims where
  width : Nat
  height : Nat
deriving DecidableEq, Repr

/-- `MediaType` from `lib/types.ts`. -/
inductive MediaType where
  | image
  | video
deriving DecidableEq, Repr

/-- `MediaItem` from `lib/types.ts`. -/
structure MediaItem where
  type : MediaType
  url : String
  thumbnail : String
  width : Nat
  height : Nat
  filesize : Nat
deriving DecidableEq, Repr

/-! ## Character and string helpers

All string processing is done on `List Char` with structural recursion
so that every definition evaluates inside the kernel. -/

/-- Split a list at the first occurrence of the separator `sep`
(JavaScript `indexOf` + slicing); `none` when `sep` does not occur. -/
def splitFirstL (sep : List Char) : List Char → Option (List Char × List Char)
  | [] => if sep.isEmpty then some ([], []) else none
  | c :: rest =>
    if sep.isPrefixOf (c :: rest) then
      some ([], (c :: rest).drop sep.length)
    else
      match splitFirstL sep rest with
      | some (a, b) => some (c :: a, b)
      | none => none

/-- Greedily take characters until one of `stops` is hit, returning the
taken part and the rest (which starts with the stop character). -/
def takeUntilAny (stops : List Char) : List Char → List Char × List Char
  | [] => ([], [])
  | c :: rest =>
    if stops.contains c then ([], c :: rest)
    else
      let (a, b) := takeUntilAny stops rest
      (c :: a, b)

/-- Split on every occurrence of character `c`
(JavaScript `String.prototype.split` with a one-character separator:
the result is never empty and keeps empty fields). -/
def splitOnChar (c : Char) : List Char → List (List Char)
  | [] => [[]]
  | x :: xs =>
    let r := splitOnChar c xs
    if x = c then [] :: r
    else
      match r with
      | h :: t => (x :: h) :: t
      | [] => [[x]]

/-- ASCII lower-casing of one character. -/
def lcChar (c : Char) : Char :=
  if 'A' ≤ c ∧ c ≤ 'Z' then Char.ofNat (c.toNat + 32) else c

/-- ASCII `String.prototype.toLowerCase` (the hostnames involved are
ASCII). -/
def lcStr (s : String) : String := ⟨s.toList.map lcChar⟩

/-- `String.prototype.endsWith`. -/
def strEndsWith (s suf : String) : Bool := suf.toList.isSuffixOf s.toList

/-- `String.prototype.startsWith`. -/
def strStartsWith (s pre : String) : Bool := pre.toList.isPrefixOf s.toList

/-- Decimal digits to a natural number (`Number` on an all-digit
string). -/
def digitsToNat (cs : List Char) : Nat :=
  cs.foldl (fun n c => n * 10 + (c.toNat - '0'.toNat)) 0

/-- Render a natural number in decimal (template-literal insertion of a
JS number). -/
def natToStr (n : Nat) : String := Nat.repr n

/-! ## URL model

A WHATWG `URL` restricted to the shapes this code base manipulates:
`scheme://host[:port]/path[?query][#fragment]`.  The query is kept as an
ordered key/value list (the view `URLSearchParams` provides); percent
decoding is not modelled (none of the parameters the code touches are
percent-encoded). -/

structure UrlRec where
  scheme : String
  host : String
  port : String
  path : String
  query : List (String × String)
  fragment : Option String
deriving DecidableEq, Repr

/-- Parse one `k=v` query piece (split at the first `=`; no `=` means an
empty value). -/
def parseQueryPiece (cs : List Char) : String × String :=
  match splitFirstL ['='] cs with
  | some (k, v) => (⟨k⟩, ⟨v⟩)
  | none => (⟨cs⟩, "")

/-- Parse a query string (without the leading `?`) into ordered
key/value pairs; empty pieces are skipped as `URLSearchParams` does. -/
def parseQuery (cs : List Char) : List (String × String) :=
  ((splitOnChar '&' cs).filter (fun p => ¬ p.isEmpty)).map parseQueryPiece

/-- `new URL(value)`: `none` models the constructor throwing.  Only the
special-scheme form `scheme://authority…` is accepted, which is the
form every URL in this pipeline takes. -/
def parseUrl (value : String) : Option UrlRec :=
  match splitFirstL [':', '/', '/'] value.toList with
  | none => none
  | some (schemeCs, rest) =>
    if schemeCs.isEmpty ∨ ¬ schemeCs.all (fun c => c.isAlpha) then none
    else
      let (auth, afterAuth) := takeUntilAny ['/', '?', '#'] rest
      if auth.isEmpty then none
      else
        -- strip userinfo (everything up to the last `@`)
        let hostPort :=
          match splitFirstL ['@'] auth.reverse with
          | some (revHp, _) => revHp.reverse
          | none => auth
        let (host, port) :=
          match splitFirstL [':'] hostPort.reverse with
          | some (revPort, revHost) => (revHost.reverse, revPort.reverse)
          | none => (hostPort, [])
        let (pathCs, afterPath) := takeUntilAny ['?', '#'] afterAuth
        let (queryCs, fragPart) :=
          match afterPath with
          | '?' :: qrest => takeUntilAny ['#'] qrest
          | other => ([], other)
        let frag : Option String :=
          match fragPart with
          | '#' :: f => some ⟨f⟩
          | _ => none
        some {
          scheme := ⟨schemeCs.map lcChar⟩
          host := ⟨host.map lcChar⟩
          port := ⟨port⟩
          path := if pathCs.isEmpty then "/" else ⟨pathCs⟩
          query := parseQuery queryCs
          fragment := frag }

/-- `URL.prototype.toString` for the model. -/
def urlToString (u : UrlRec) : String :=
  u.scheme ++ "://" ++ u.host ++ (if u.port = "" then "" else ":" ++ u.port) ++
    u.path ++
    (if u.query.isEmpty then ""
     else "?" ++ String.intercalate "&" (u.query.map (fun p => p.1 ++ "=" ++ p.2))) ++
    (match u.fragment with
     | some f => "#" ++ f
     | none => "")

/-- `searchParams.get(k)`: the first value stored under `k`. -/
def getParam (u : UrlRec) (k : String) : Option String :=
  (u.query.find? (fun p => p.1 = k)).map (fun p => p.2)

/-- `searchParams.set(k, v)`: overwrite the first entry for `k`, drop
any further ones, append when absent. -/
def setParamList (k v : String) : List (String × String) → List (String × String)
  | [] => [(k, v)]
  | (k', v') :: rest =>
    if k' = k then (k, v) :: rest.filter (fun p => p.1 ≠ k)
    else (k', v') :: setParamList k v rest

/-- `searchParams.delete(k)`. -/
def deleteParamList (k : String) (q : List (String × String)) :
    List (String × String) :=
  q.filter (fun p => p.1 ≠ k)

def setParam (u : UrlRec) (k v : String) : UrlRec :=
  { u with query := setParamList k v u.query }

def deleteParam (u : UrlRec) (k : String) : UrlRec :=
  { u with query := deleteParamList k u.query }

/-! ## `lib/instagram-cdn.ts` -/

/-- `isAllowedProxyUrl` from `lib/instagram-cdn.ts`. -/
def isAllowedProxyUrl (value : String) : Bool :=
  match parseUrl value with
  | none => false
  | some url =>
    let host := lcStr url.host
    host == "instagram.com" ||
      strEndsWith host ".instagram.com" ||
      strEndsWith host ".cdninstagram.com" ||
      strEndsWith host ".fbcdn.net"

/-! ## `lib/media.ts` — Resolution Upgrade Engine

`parseEfgDimensions` (base64 → JSON → regex), the network probe
`probeImageUrl` and the dimension sniffer `probeImageDimensions` are
passed in as oracle parameters `efg`, `probe` and `sniff`: the claims
under verification quantify over every outcome of the tag decode, the
probe and the sniff. -/

/-- One entry of the `candidates` array in `tryUpgradeSize`: a target
size with its `stp` size-token prefix character, or the literal string
sentinel `"remove"`. -/
inductive Candidate where
  | dims (w h : Nat) (pfx : String)
  | remove
deriving DecidableEq, Repr

/-- The regex `^(p|s)(\d+)x(\d+)$` applied to one `stp` token: prefix
letter, width, height. -/
def parseSizeToken (t : String) : Option (String × Nat × Nat) :=
  match t.toList with
  | [] => none
  | c :: rest =>
    if c = 'p' ∨ c = 's' then
      let (ws, rest2) := rest.span (fun d => d.isDigit)
      if ws.isEmpty then none
      else
        match rest2 with
        | 'x' :: rest3 =>
          let (hs, rest4) := rest3.span (fun d => d.isDigit)
          if hs.isEmpty ∨ ¬ rest4.isEmpty then none
          else some (⟨[c]⟩, digitsToNat ws, digitsToNat hs)
        | _ => none
    else none

/-- `Math.round(a / b)` for non-negative values, computed exactly on
rationals: `⌊a/b + 1/2⌋`. -/
def jsRoundDiv (a b : Nat) : Nat := (2 * a + b) / (2 * b)

/-- The `candidates` array built by `tryUpgradeSize` (source order:
efg-derived dims, caller target dims, the `"remove"` sentinel, the
1440/1200 tiers — `"s"` variant first, then the original prefix when it
differs — and finally the 4/3 multiplier).  `tierH` is
`Math.round(tierW * (origH / origW))` and the 4/3 entries are
`Math.round(orig * 4 / 3)`. -/
def candidatesFor (efgDims target : Option Dims) (pfx : String)
    (origW origH : Nat) : List Candidate :=
  (match efgDims with
   | some d => if origW < d.width then [Candidate.dims d.width d.height pfx] else []
   | none => []) ++
  (match target with
   | some d => if origW < d.width then [Candidate.dims d.width d.height pfx] else []
   | none => []) ++
  [Candidate.remove] ++
  (([1440, 1200] : List Nat).flatMap (fun tierW =>
    if origW < tierW then
      let tierH := jsRoundDiv (tierW * origH) origW
      [Candidate.dims tierW tierH "s"] ++
        (if pfx ≠ "s" then [Candidate.dims tierW tierH pfx] else [])
    else [])) ++
  (let w43 := jsRoundDiv (origW * 4) 3
   let h43 := jsRoundDiv (origH * 4) 3
   if origW < w43 then [Candidate.dims w43 h43 pfx] else [])

/-- `buildCandidateUrl` from `lib/media.ts` (the clone of `parsed` is
value copying in the model). -/
def buildCandidateUrl (parsed : UrlRec) (tokens : List String)
    (sizeIndex : Nat) (candidate : Candidate) : UrlRec :=
  match candidate with
  | Candidate.remove =>
    let withoutSize := (tokens.enum.filter (fun p => p.1 ≠ sizeIndex)).map (fun p => p.2)
    if withoutSize.length > 0 then
      setParam parsed "stp" (String.intercalate "_" withoutSize)
    else
      deleteParam parsed "stp"
  | Candidate.dims w h pfx =>
    let updated := tokens.set sizeIndex (pfx ++ natToStr w ++ "x" ++ natToStr h)
    setParam parsed "stp" (String.intercalate "_" updated)

/-- The probe loop at the bottom of `tryUpgradeSize`, instrumented: the
result together with the list of URLs handed to `probeImageUrl`
(pre-redirect candidate URLs, in order) and the list of URLs handed to
`probeImageDimensions` (post-redirect URLs, in order).  The source loop
has no deduplication of either list. -/
def upgradeLoopT (probe : String → Option String) (sniff : String → Option Dims)
    (origW : Nat) (build : Candidate → String) :
    List Candidate → Option String × List String × List String
  | [] => (none, [], [])
  | c :: rest =>
    let probeUrl := build c
    match probe probeUrl with
    | none =>
      let t := upgradeLoopT probe sniff origW build rest
      (t.1, probeUrl :: t.2.1, t.2.2)
    | some result =>
      match sniff result with
      | some dims =>
        if origW < dims.width then (some result, [probeUrl], [result])
        else
          let t := upgradeLoopT probe sniff origW build rest
          (t.1, probeUrl :: t.2.1, result :: t.2.2)
      | none => (some result, [probeUrl], [result])

/-- The probe loop's return value alone. -/
def upgradeLoop (probe : String → Option String) (sniff : String → Option Dims)
    (origW : Nat) (build : Candidate → String) (cs : List Candidate) :
    Option String :=
  (upgradeLoopT probe sniff origW build cs).1

/-- Lines 134–152 of `lib/media.ts`: parse the URL, read `stp`, split it
on `_`, locate the size token, and decompose it; `none` models every
early `return null`. -/
def stpContext (url : String) :
    Option (UrlRec × List String × Nat × String × Nat × Nat) :=
  match parseUrl url with
  | none => none
  | some parsed =>
    match getParam parsed "stp" with
    | none => none
    | some stp =>
      let tokens := (splitOnChar '_' stp.toList).map (fun l => (⟨l⟩ : String))
      match tokens.findIdx? (fun t => (parseSizeToken t).isSome) with
      | none => none
      | some sizeIndex =>
        match parseSizeToken (tokens.getD sizeIndex "") with
        | none => none
        | some (pfx, origW, origH) =>
          if origW = 0 ∨ origH = 0 then none
          else some (parsed, tokens, sizeIndex, pfx, origW, origH)

/-- The width in the original size token of a URL (0 when the URL has no
recognizable size token; `tryUpgradeSize` then returns `null` anyway). -/
def origWidthOf (url : String) : Nat :=
  match stpContext url with
  | some (_, _, _, _, origW, _) => origW
  | none => 0

/-- `tryUpgradeSize` from `lib/media.ts`, instrumented with the probed
and sniffed URL traces. -/
def tryUpgradeSizeT (efg : String → Option Dims) (probe : String → Option String)
    (sniff : String → Option Dims) (url : String) (target : Option Dims) :
    Option String × List String × List String :=
  match stpContext url with
  | none => (none, [], [])
  | some (parsed, tokens, sizeIndex, pfx, origW, origH) =>
    let cs := candidatesFor (efg url) target pfx origW origH
    upgradeLoopT probe sniff origW
      (fun c => urlToString (buildCandidateUrl parsed tokens sizeIndex c)) cs

/-- `tryUpgradeSize` from `lib/media.ts` (result only). -/
def tryUpgradeSize (efg : String → Option Dims) (probe : String → Option String)
    (sniff : String → Option Dims) (url : String) (target : Option Dims) :
    Option String :=
  (tryUpgradeSizeT efg probe sniff url target).1

/-! ## `lib/media.ts` — network probe -/

/-- One settled `fetch`: `ok`, the `content-type` header (`""` when the
header is absent, matching `?? ""`), and `res.url` (`""` models a
falsy `res.url`). -/
structure FetchResp where
  ok : Bool
  contentType : String
  finalUrl : String
deriving DecidableEq, Repr

/-- `probeImageUrl` from `lib/media.ts`, instrumented with the list of
URLs actually fetched.  `headReq`/`getReq` are the two `fetch` attempts
(HEAD, then GET with `Range: bytes=0-0`); `none` models a rejected
fetch (timeout or network error).  Note the source performs no
allowlist validation on `url` and none on the post-redirect `res.url`
it returns. -/
def probeImageUrlT (headReq getReq : String → Option FetchResp)
    (url : String) : Option String × List String :=
  let tryGet : Option String × List String :=
    match getReq url with
    | some res =>
      if res.ok && strStartsWith res.contentType "image/" then
        (some (if res.finalUrl = "" then url else res.finalUrl), [url, url])
      else (none, [url, url])
    | none => (none, [url, url])
  match headReq url with
  | some res =>
    if res.ok && strStartsWith res.contentType "image/" then
      (some (if res.finalUrl = "" then url else res.finalUrl), [url])
    else tryGet
  | none => tryGet

/-- `probeImageUrl` (result only). -/
def probeImageUrl (headReq getReq : String → Option FetchResp)
    (url : String) : Option String :=
  (probeImageUrlT headReq getReq url).1

/-! ## `lib/instagram.ts` — Shape Normalizer

A media node is duck-typed in the source.  `MNode` keeps the two
carousel field shapes (`edge_sidecar_to_children.edges`, already
projected through `edge.node`, and `carousel_media`) as `Option` fields
— exactly the two checks `extractFromMediaNode` performs — plus the leaf
payload.  `inferVideoDimensionsFromUrl` (efg decode + regex) is the
oracle parameter `inferVid`. -/

/-- One raw entry of a resolution-candidate list
(`display_resources` / `video_versions` …): heterogeneous field names. -/
structure RawCandidate where
  src : Option String
  url : Option String
  width : Option Nat
  config_width : Option Nat
  height : Option Nat
  config_height : Option Nat
deriving DecidableEq, Repr

/-- A normalized candidate, the output shape of `normalizeCandidates`. -/
structure NCand where
  src : String
  width : Nat
  height : Nat
deriving DecidableEq, Repr

/-- `normalizeCandidates` from `lib/instagram.ts`. -/
def normalizeCandidates (cs : List RawCandidate) : List NCand :=
  (cs.map (fun c =>
    NCand.mk (c.src.getD (c.url.getD ""))
      (c.width.getD (c.config_width.getD 0))
      (c.height.getD (c.config_height.getD 0)))).filter
    (fun c => c.src ≠ "")

/-- `pickLargest`: `reduce((best, cur) => cur.w*cur.h > best.w*best.h ? cur : best)`. -/
def pickLargest : List NCand → Option NCand
  | [] => none
  | x :: xs =>
    some (xs.foldl (fun best cur =>
      if best.width * best.height < cur.width * cur.height then cur else best) x)

/-- `pickSmallest`: `reduce((best, cur) => cur.w*cur.h < best.w*best.h ? cur : best)`. -/
def pickSmallest : List NCand → Option NCand
  | [] => none
  | x :: xs =>
    some (xs.foldl (fun best cur =>
      if cur.width * cur.height < best.width * best.height then cur else best) x)

/-- Leaf fields of a media node that `extractFromMediaNode` reads. -/
structure LeafData where
  is_video : Bool
  typename : Option String
  media_type : Option Nat
  display_resources : Option (List RawCandidate)
  display_candidates : Option (List RawCandidate)
  image_versions2_candidates : Option (List RawCandidate)
  thumbnail_src : Option String
  display_url : Option String
  video_resources : Option (List RawCandidate)
  video_versions : Option (List RawCandidate)
  video_url : Option String
  dimensions : Option Dims
deriving DecidableEq, Repr

/-- A media node: the two carousel children shapes, then leaf data. -/
inductive MNode where
  | mk (sidecarEdges : Option (List MNode)) (carouselMedia : Option (List MNode))
      (leaf : LeafData)
deriving Repr

/-- `Boolean(node.is_video) || node.__typename === "GraphVideo" || node.media_type === 2`. -/
def leafIsVideo (leaf : LeafData) : Bool :=
  leaf.is_video || leaf.typename == some "GraphVideo" || leaf.media_type == some 2

/-- `node.display_resources ?? node.display_candidates ?? node.image_versions2?.candidates ?? []`,
normalized. -/
def leafImageCandidates (leaf : LeafData) : List NCand :=
  normalizeCandidates
    ((leaf.display_resources <|> leaf.display_candidates <|>
      leaf.image_versions2_candidates).getD [])

/-- `node.video_resources ?? node.video_versions ?? []`, normalized. -/
def leafVideoCandidates (leaf : LeafData) : List NCand :=
  normalizeCandidates ((leaf.video_resources <|> leaf.video_versions).getD [])

/-- Truthy `{width, height}` out of a candidate (`c?.width && c?.height`). -/
def candDims : Option NCand → Option Dims
  | some c => if c.width ≠ 0 ∧ c.height ≠ 0 then some ⟨c.width, c.height⟩ else none
  | none => none

/-- Truthy `{width, height}` out of `node.dimensions`. -/
def optDims : Option Dims → Option Dims
  | some d => if d.width ≠ 0 ∧ d.height ≠ 0 then some d else none
  | none => none

/-- The asset URL a leaf resolves to:
`bestVideo?.src ?? node.video_url ?? ""` for a video,
`bestImage?.src ?? node.display_url ?? ""` for an image — the quantity
whose non-emptiness decides whether the leaf yields an item. -/
def leafAssetUrl (leaf : LeafData) : String :=
  if leafIsVideo leaf then
    (((pickLargest (leafVideoCandidates leaf)).map (fun c => c.src)) <|>
      leaf.video_url).getD ""
  else
    (((pickLargest (leafImageCandidates leaf)).map (fun c => c.src)) <|>
      leaf.display_url).getD ""

/-- The leaf (non-carousel) arm of `extractFromMediaNode`. -/
def extractLeaf (inferVid : String → Dims → Option Dims) (leaf : LeafData) :
    List MediaItem :=
  let isVideo := leafIsVideo leaf
  let candidates := leafImageCandidates leaf
  let bestImage := pickLargest candidates
  let thumbnail :=
    (((pickSmallest candidates).map (fun c => c.src)) <|> leaf.thumbnail_src <|>
      leaf.display_url <|> (bestImage.map (fun c => c.src))).getD ""
  if isVideo then
    let videoCandidates := leafVideoCandidates leaf
    let bestVideo := pickLargest videoCandidates
    let url := ((bestVideo.map (fun c => c.src)) <|> leaf.video_url).getD ""
    if url = "" then []
    else
      let aspectSource : Option Dims :=
        candDims bestVideo <|> candDims bestImage <|> optDims leaf.dimensions
      let inferred : Option Dims :=
        if bestVideo.isNone then
          match aspectSource with
          | some a => inferVid url a
          | none => none
        else none
      let w := ((inferred.map (fun d => d.width)) <|>
        (bestVideo.map (fun c => c.width)) <|> (bestImage.map (fun c => c.width)) <|>
        (leaf.dimensions.map (fun d => d.width))).getD 0
      let h := ((inferred.map (fun d => d.height)) <|>
        (bestVideo.map (fun c => c.height)) <|> (bestImage.map (fun c => c.height)) <|>
        (leaf.dimensions.map (fun d => d.height))).getD 0
      [⟨MediaType.video, url, thumbnail, w, h, 0⟩]
  else
    let url := ((bestImage.map (fun c => c.src)) <|> leaf.display_url).getD ""
    if url = "" then []
    else
      [⟨MediaType.image, url, thumbnail,
        ((bestImage.map (fun c => c.width)) <|> (leaf.dimensions.map (fun d => d.width))).getD 0,
        ((bestImage.map (fun c => c.height)) <|> (leaf.dimensions.map (fun d => d.height))).getD 0,
        0⟩]

mutual

/-- `extractFromMediaNode` from `lib/instagram.ts`: recurse through
either carousel shape (GraphQL sidecar edges first, then
`carousel_media`), flatten, otherwise extract the leaf. -/
def extractFromMediaNode (inferVid : String → Dims → Option Dims) :
    MNode → List MediaItem
  | MNode.mk (some edges) _ _ => extractNodeList inferVid edges
  | MNode.mk none (some children) _ => extractNodeList inferVid children
  | MNode.mk none none leaf => extractLeaf inferVid leaf

/-- `edges.flatMap((edge) => extractFromMediaNode(edge.node))`, written
as direct recursion over the children list. -/
def extractNodeList (inferVid : String → Dims → Option Dims) :
    List MNode → List MediaItem
  | [] => []
  | n :: ns => extractFromMediaNode inferVid n ++ extractNodeList inferVid ns

end

mutual

/-- The number of leaf descendants of a node that carry a resolvable
asset URL (the spec's count for carousel flattening). -/
def resolvableLeafCount : MNode → Nat
  | MNode.mk (some edges) _ _ => resolvableLeafCountList edges
  | MNode.mk none (some children) _ => resolvableLeafCountList children
  | MNode.mk none none leaf => if leafAssetUrl leaf = "" then 0 else 1

def resolvableLeafCountList : List MNode → Nat
  | [] => 0
  | n :: ns => resolvableLeafCount n + resolvableLeafCountList ns

end

/-! ## `lib/instagram.ts` — Strategy Cascade Resolver

`fetchPostMedia` is modelled after URL normalization, over oracles for
(a) the three outbound fetches, (b) `JSON.parse`/`res.json()` composed
with the response body (`parseJson`), (c) the cheerio script scan
`extractJsonFromHtml` (`blobsOf`), (d) `extractMetaMediaFromHtml`'s item
list (`metaOf`), (e) `resolveLegacyImageUrl`'s result (`legacy`), and
(f) the per-item effect of `enrichMediaItems` (`enrich`).  The cascade
control flow itself is translated verbatim, and the model additionally
returns the list of strategies that started executing (1–4, in
execution order). -/

/-- The outcome of one `fetchWithTimeout` call: a successful (`res.ok`)
response with its body, a settled non-ok response with its HTTP status,
or a rejected promise (timeout / DNS / connection failure). -/
inductive FetchOutcome where
  | success (body : String)
  | httpError (status : Nat)
  | transportFail
deriving DecidableEq, Repr

/-- The errors `fetchPostMedia` can surface: `UpstreamError` with its
status and message, a propagated transport rejection, and the terminal
"no media found" error. -/
inductive PipeError where
  | upstream (status : Nat) (message : String)
  | transport
  | noMedia
deriving DecidableEq, Repr

/-- `fetchHtml` from `lib/instagram.ts`: 401/403 become the distinguished
blocked `UpstreamError`, any other non-ok status becomes a generic
`UpstreamError`, a rejected fetch propagates. -/
def fetchHtmlM : FetchOutcome → Except PipeError String
  | FetchOutcome.success body => Except.ok body
  | FetchOutcome.httpError status =>
    if status = 401 ∨ status = 403 then
      Except.error (PipeError.upstream status
        "Instagram temporarily blocked this request. Try again later.")
    else
      Except.error (PipeError.upstream status "Failed to fetch Instagram content.")
  | FetchOutcome.transportFail => Except.error PipeError.transport

/-- The top-level JSON blob shapes `extractShortcodeMedia` probes, each
path pre-navigated to an optional media node. -/
structure Blob where
  graphql_shortcode_media : Option MNode
  data_shortcode_media : Option MNode
  gql_data_shortcode_media : Option MNode
  context_media : Option MNode
  items : Option (List MNode)
  props_pageProps_data_shortcode_media : Option MNode
  props_pageProps_graphql_shortcode_media : Option MNode
deriving Repr

/-- `extractShortcodeMedia` from `lib/instagram.ts`: the seven known
nesting paths, in source order, first hit wins. -/
def extractShortcodeMedia (b : Blob) : Option MNode :=
  match b.graphql_shortcode_media with
  | some m => some m
  | none =>
  match b.data_shortcode_media with
  | some m => some m
  | none =>
  match b.gql_data_shortcode_media with
  | some m => some m
  | none =>
  match b.context_media with
  | some m => some m
  | none =>
  match b.items with
  | some (x :: _) => some x
  | _ =>
  match b.props_pageProps_data_shortcode_media with
  | some m => some m
  | none => b.props_pageProps_graphql_shortcode_media

/-- `tryFetchJson`: every failure (non-ok status, transport error, JSON
parse error — the latter folded into `parse` returning `none`) yields
`null`. -/
def tryFetchJsonM (parse : String → Option Blob) : FetchOutcome → Option Blob
  | FetchOutcome.success body => parse body
  | FetchOutcome.httpError _ => none
  | FetchOutcome.transportFail => none

/-- The oracle environment of one `fetchPostMedia` run. -/
structure CascadeEnv where
  inferVid : String → Dims → Option Dims
  fetch1 : FetchOutcome
  parseJson : String → Option Blob
  fetch2 : FetchOutcome
  blobsOf : String → List Blob
  fetch3 : FetchOutcome
  metaOf : String → List MediaItem
  legacy : Option String
  enrich : MediaItem → MediaItem

/-- The items strategy 1 extracts before enrichment:
`media ? extractFromMediaNode(media) : []` over the `?__a=1&__d=dis`
JSON. -/
def strat1Items (env : CascadeEnv) : List MediaItem :=
  match tryFetchJsonM env.parseJson env.fetch1 with
  | some blob =>
    match extractShortcodeMedia blob with
    | some media => extractFromMediaNode env.inferVid media
    | none => []
  | none => []

/-- `extractFromHtmlJson` from `lib/instagram.ts`: the first JSON blob
whose located media node yields a non-empty item list wins; its items
are enriched and returned. -/
def extractFromHtmlJsonM (env : CascadeEnv) (blobs : List Blob) :
    Option (List MediaItem) :=
  blobs.findSome? (fun blob =>
    match extractShortcodeMedia blob with
    | none => none
    | some media =>
      let items := extractFromMediaNode env.inferVid media
      if items.isEmpty then none else some (items.map env.enrich))

/-- Strategy 4's item post-processing: when the meta fallback produced
exactly one image item and the legacy redirect resolved, the item's
`url`/`thumbnail` are replaced with the resolved URL. -/
def strat4Items (env : CascadeEnv) (html : String) : List MediaItem :=
  match env.metaOf html with
  | [item] =>
    if item.type = MediaType.image then
      match env.legacy with
      | some legacyUrl => [{ item with url := legacyUrl, thumbnail := legacyUrl }]
      | none => [item]
    else [item]
  | metaItems => metaItems

/-- `fetchPostMedia` from `lib/instagram.ts` (after `normalizePostUrl`),
instrumented with the list of strategies that started executing. -/
def fetchPostMediaT (env : CascadeEnv) :
    Except PipeError (List MediaItem) × List Nat :=
  let items1 := strat1Items env
  if items1.isEmpty then
    -- Strategy 2: canonical page HTML, embedded-script JSON
    match fetchHtmlM env.fetch2 with
    | Except.error e => (Except.error e, [1, 2])
    | Except.ok html =>
      match extractFromHtmlJsonM env (env.blobsOf html) with
      | some items => (Except.ok items, [1, 2])
      | none =>
        -- Strategy 3: embed page HTML
        match fetchHtmlM env.fetch3 with
        | Except.error e => (Except.error e, [1, 2, 3])
        | Except.ok embedHtml =>
          match extractFromHtmlJsonM env (env.blobsOf embedHtml) with
          | some items => (Except.ok items, [1, 2, 3])
          | none =>
            -- Strategy 4: OG meta tags off strategy 2's HTML
            if (env.metaOf html).isEmpty then
              (Except.error PipeError.noMedia, [1, 2, 3, 4])
            else
              (Except.ok ((strat4Items env html).map env.enrich), [1, 2, 3, 4])
  else (Except.ok (items1.map env.enrich), [1])

/-- `fetchPostMedia` result alone. -/
def fetchPostMediaEnv (env : CascadeEnv) : Except PipeError (List MediaItem) :=
  (fetchPostMediaT env).1

/-! ## Helper lemmas about the upgrade probe loop -/

/-- A candidate is accepted by the probe loop when its probe succeeds
and the sniffed dimensions are either unavailable or strictly wider
than the original token width. -/
def acceptsB (probe : String → Option String) (sniff : String → Option Dims)
    (origW : Nat) (build : Candidate → String) (c : Candidate) : Bool :=
  match probe (build c) with
  | none => false
  | some r =>
    match sniff r with
    | none => true
    | some d => origW < d.width

theorem upgradeLoop_nil {probe : String → Option String}
    {sniff : String → Option Dims} {origW : Nat} {build : Candidate → String} :
    upgradeLoop probe sniff origW build [] = none := rfl

theorem upgradeLoop_cons_probeFail {probe : String → Option String}
    {sniff : String → Option Dims} {origW : Nat} {build : Candidate → String}
    {c : Candidate} {rest : List Candidate}
    (hp : probe (build c) = none) :
    upgradeLoop probe sniff origW build (c :: rest) =
      upgradeLoop probe sniff origW build rest := by
  simp [upgradeLoop, upgradeLoopT, hp]

theorem upgradeLoop_cons_sniffNone {probe : String → Option String}
    {sniff : String → Option Dims} {origW : Nat} {build : Candidate → String}
    {c : Candidate} {rest : List Candidate} {r : String}
    (hp : probe (build c) = some r) (hs : sniff r = none) :
    upgradeLoop probe sniff origW build (c :: rest) = some r := by
  simp [upgradeLoop, upgradeLoopT, hp, hs]

theorem upgradeLoop_cons_wider {probe : String → Option String}
    {sniff : String → Option Dims} {origW : Nat} {build : Candidate → String}
    {c : Candidate} {rest : List Candidate} {r : String} {d : Dims}
    (hp : probe (build c) = some r) (hs : sniff r = some d)
    (hw : origW < d.width) :
    upgradeLoop probe sniff origW build (c :: rest) = some r := by
  simp [upgradeLoop, upgradeLoopT, hp, hs, hw]

theorem upgradeLoop_cons_narrow {probe : String → Option String}
    {sniff : String → Option Dims} {origW : Nat} {build : Candidate → String}
    {c : Candidate} {rest : List Candidate} {r : String} {d : Dims}
    (hp : probe (build c) = some r) (hs : sniff r = some d)
    (hw : ¬ origW < d.width) :
    upgradeLoop probe sniff origW build (c :: rest) =
      upgradeLoop probe sniff origW build rest := by
  simp [upgradeLoop, upgradeLoopT, hp, hs, hw]

theorem upgradeLoop_eq_some {probe : String → Option String}
    {sniff : String → Option Dims} {origW : Nat} {build : Candidate → String} :
    ∀ {cs : List Candidate} {r : String},
      upgradeLoop probe sniff origW build cs = some r →
      sniff r = none ∨ ∃ d, sniff r = some d ∧ origW < d.width := by
  intro cs
  induction cs with
  | nil => intro r h; rw [upgradeLoop_nil] at h; exact absurd h (by simp)
  | cons c rest ih =>
    intro r h
    cases hp : probe (build c) with
    | none =>
      rw [upgradeLoop_cons_probeFail hp] at h
      exact ih h
    | some result =>
      cases hs : sniff result with
      | none =>
        rw [upgradeLoop_cons_sniffNone hp hs] at h
        cases h
        exact Or.inl hs
      | some dims =>
        by_cases hw : origW < dims.width
        · rw [upgradeLoop_cons_wider hp hs hw] at h
          cases h
          exact Or.inr ⟨dims, hs, hw⟩
        · rw [upgradeLoop_cons_narrow hp hs hw] at h
          exact ih h

theorem upgradeLoop_eq_none {probe : String → Option String}
    {sniff : String → Option Dims} {origW : Nat} {build : Candidate → String}
    (h1 : ∀ s, sniff s ≠ none)
    (h2 : ∀ s d, sniff s = some d → d.width ≤ origW) :
    ∀ cs : List Candidate, upgradeLoop probe sniff origW build cs = none := by
  intro cs
  induction cs with
  | nil => exact upgradeLoop_nil
  | cons c rest ih =>
    cases hp : probe (build c) with
    | none => rw [upgradeLoop_cons_probeFail hp]; exact ih
    | some result =>
      cases hs : sniff result with
      | none => exact absurd hs (h1 result)
      | some dims =>
        have hw : ¬ origW < dims.width := Nat.not_lt.mpr (h2 result dims hs)
        rw [upgradeLoop_cons_narrow hp hs hw]
        exact ih

theorem upgradeLoop_eq_find {probe : String → Option String}
    {sniff : String → Option Dims} {origW : Nat} {build : Candidate → String} :
    ∀ cs : List Candidate,
      upgradeLoop probe sniff origW build cs =
        (cs.find? (acceptsB probe sniff origW build)).bind
          (fun c => probe (build c)) := by
  intro cs
  induction cs with
  | nil => simp [upgradeLoop_nil]
  | cons c rest ih =>
    cases hp : probe (build c) with
    | none =>
      have ha : acceptsB probe sniff origW build c = false := by
        simp [acceptsB, hp]
      rw [upgradeLoop_cons_probeFail hp, List.find?_cons, ha]
      simpa using ih
    | some result =>
      cases hs : sniff result with
      | none =>
        have ha : acceptsB probe sniff origW build c = true := by
          simp [acceptsB, hp, hs]
        rw [upgradeLoop_cons_sniffNone hp hs, List.find?_cons, ha]
        simp [hp]
      | some dims =>
        by_cases hw : origW < dims.width
        · have ha : acceptsB probe sniff origW build c = true := by
            simp [acceptsB, hp, hs, hw]
          rw [upgradeLoop_cons_wider hp hs hw, List.find?_cons, ha]
          simp [hp]
        · have ha : acceptsB probe sniff origW build c = false := by
            simp [acceptsB, hp, hs, hw]
          rw [upgradeLoop_cons_narrow hp hs hw, List.find?_cons, ha]
          simpa using ih

/-! ## Concrete fixture shared by several upgrade-engine results -/

/-- A size-constrained CDN image URL fixture:
`stp=dst-jpg_e35_p640x640`, so the original token width is 640 with
prefix `p`. -/
def urlC : String :=
  "https://scontent.cdninstagram.com/v/t51/img.jpg?stp=dst-jpg_e35_p640x640"

theorem tryUpgradeSize_none_ctx {efg : String → Option Dims}
    {probe : String → Option String} {sniff : String → Option Dims}
    {url : String} {target : Option Dims}
    (hc : stpContext url = none) :
    tryUpgradeSize efg probe sniff url target = none := by
  simp [tryUpgradeSize, tryUpgradeSizeT, hc]

theorem tryUpgradeSize_eq_loop {efg : String → Option Dims}
    {probe : String → Option String} {sniff : String → Option Dims}
    {url : String} {target : Option Dims}
    {parsed : UrlRec} {tokens : List String} {sizeIndex : Nat} {pfx : String}
    {origW origH : Nat}
    (hc : stpContext url = some (parsed, tokens, sizeIndex, pfx, origW, origH)) :
    tryUpgradeSize efg probe sniff url target =
      upgradeLoop probe sniff origW
        (fun c => urlToString (buildCandidateUrl parsed tokens sizeIndex c))
        (candidatesFor (efg url) target pfx origW origH) := by
  simp [tryUpgradeSize, tryUpgradeSizeT, upgradeLoop, hc]

theorem origWidthOf_eq {url : String}
    {parsed : UrlRec} {tokens : List String} {sizeIndex : Nat} {pfx : String}
    {origW origH : Nat}
    (hc : stpContext url = some (parsed, tokens, sizeIndex, pfx, origW, origH)) :
    origWidthOf url = origW := by
  simp [origWidthOf, hc]

/-- C1 (amended): `tryUpgradeSize` accepts a candidate only when its
probe succeeded and the sniffed width either strictly exceeds the
original size-token width or could not be determined (the source
explicitly "trusts the CDN" then); when the sniffer always answers and
never reports a width above the original, the function returns null and
the caller retains the original URL. -/
theorem c1_upgrade_accepts_wider_or_unverified
    (efg : String → Option Dims) (probe : String → Option String)
    (sniff : String → Option Dims) (url : String) (target : Option Dims) :
    (∀ r, tryUpgradeSize efg probe sniff url target = some r →
       sniff r = none ∨ ∃ d, sniff r = some d ∧ origWidthOf url < d.width)
    ∧ ((∀ s, sniff s ≠ none) →
       (∀ s d, sniff s = some d → d.width ≤ origWidthOf url) →
       tryUpgradeSize efg probe sniff url target = none) := by
  constructor
  · intro r h
    cases hc : stpContext url with
    | none =>
      rw [tryUpgradeSize_none_ctx hc] at h
      exact absurd h (by simp)
    | some ctx =>
      obtain ⟨parsed, tokens, sizeIndex, pfx, origW, origH⟩ := ctx
      rw [tryUpgradeSize_eq_loop hc] at h
      rw [origWidthOf_eq hc]
      exact upgradeLoop_eq_some h
  · intro h1 h2
    cases hc : stpContext url with
    | none => exact tryUpgradeSize_none_ctx hc
    | some ctx =>
      obtain ⟨parsed, tokens, sizeIndex, pfx, origW, origH⟩ := ctx
      rw [tryUpgradeSize_eq_loop hc]
      refine upgradeLoop_eq_none h1 (fun s d hd => ?_) _
      have := h2 s d hd
      rwa [origWidthOf_eq hc] at this

theorem c1_witness :
    tryUpgradeSize (fun _ => none) (fun s => some s)
      (fun _ => some ⟨100, 100⟩) urlC none = none :=
  (c1_upgrade_accepts_wider_or_unverified (fun _ => none) (fun s => some s)
      (fun _ => some ⟨100, 100⟩) urlC none).2
    (fun _ => by simp)
    (fun s d hd => by cases hd; decide)

/-- C1 counterexample: under a probe that always succeeds (the CDN
serves every candidate) and a sniffer that can never determine
dimensions, the engine accepts the very first candidate it probes —
here the constraint-removal URL — although nothing verified it as
wider.  The claim's "a candidate whose dimensions cannot be sniffed is
never accepted, and when no candidate verifies as strictly wider the
function returns null" is therefore false on the code (source line 195:
"can't verify, trust the CDN"). -/
theorem c1_counterexample :
    tryUpgradeSize (fun _ => none) (fun s => some s) (fun _ => none) urlC none =
      some "https://scontent.cdninstagram.com/v/t51/img.jpg?stp=dst-jpg_e35" := by
  decide

/-- The candidate list in the order claim C3 states it: efg-tag dims (if
wider), caller dims (if wider), the descending tiers with both prefix
variants, and the constraint-removal sentinel strictly last, with no
other candidates. -/
def specCandidatesFor (efgDims target : Option Dims) (pfx : String)
    (origW origH : Nat) : List Candidate :=
  (match efgDims with
   | some d => if origW < d.width then [Candidate.dims d.width d.height pfx] else []
   | none => []) ++
  (match target with
   | some d => if origW < d.width then [Candidate.dims d.width d.height pfx] else []
   | none => []) ++
  (([1440, 1200] : List Nat).flatMap (fun tierW =>
    if origW < tierW then
      let tierH := jsRoundDiv (tierW * origH) origW
      [Candidate.dims tierW tierH "s"] ++
        (if pfx ≠ "s" then [Candidate.dims tierW tierH pfx] else [])
    else [])) ++
  [Candidate.remove]

/-- C3 counterexample: for a plain `p640x640` URL with no efg tag and no
caller dims, the code's candidate list starts with the removal sentinel
(followed by the tiers and a 4/3-multiplier candidate the claim does not
admit), so it differs from the claimed order; consequently, when the
removal candidate happens to serve a 700px asset the engine returns it
even though the 1440-tier candidate would have verified far wider. -/
theorem c3_counterexample :
    candidatesFor none none "p" 640 640 ≠ specCandidatesFor none none "p" 640 640
    ∧ (candidatesFor none none "p" 640 640).head? = some Candidate.remove
    ∧ 2 ≤ (candidatesFor none none "p" 640 640).length
    ∧ tryUpgradeSize (fun _ => none) (fun s => some s)
        (fun s =>
          if s = "https://scontent.cdninstagram.com/v/t51/img.jpg?stp=dst-jpg_e35"
          then some ⟨700, 700⟩ else some ⟨1440, 1440⟩)
        urlC none =
      some "https://scontent.cdninstagram.com/v/t51/img.jpg?stp=dst-jpg_e35" := by
  exact ⟨by decide, by decide, by decide, by decide⟩

/-- C3 (amended): within one call the candidates are exactly, and are
probed in exactly, the order built by `candidatesFor` — efg-tag dims
(if wider), caller dims (if wider), the constraint-removal sentinel,
the 1440/1200 tiers (an `s`-prefix variant, then the original prefix
when it differs), and finally the 4/3-multiplier candidate — and the
result is the probe answer of the first candidate in that order whose
probe succeeds and whose sniff is missing or strictly wider; no later
candidate is consulted. -/
theorem c3_first_accepted_candidate
    (efg : String → Option Dims) (probe : String → Option String)
    (sniff : String → Option Dims) (url : String) (target : Option Dims)
    (parsed : UrlRec) (tokens : List String) (sizeIndex : Nat) (pfx : String)
    (origW origH : Nat)
    (hc : stpContext url = some (parsed, tokens, sizeIndex, pfx, origW, origH)) :
    tryUpgradeSize efg probe sniff url target =
      ((candidatesFor (efg url) target pfx origW origH).find?
          (acceptsB probe sniff origW
            (fun c => urlToString (buildCandidateUrl parsed tokens sizeIndex c)))).bind
        (fun c => probe (urlToString (buildCandidateUrl parsed tokens sizeIndex c))) := by
  rw [tryUpgradeSize_eq_loop hc]
  exact upgradeLoop_eq_find _

theorem c3_witness :
    tryUpgradeSize (fun _ => none) (fun s => some s) (fun _ => none) urlC none =
      ((candidatesFor none none "p" 640 640).find?
          (acceptsB (fun s => some s) (fun _ => none) 640
            (fun c => urlToString (buildCandidateUrl
              ⟨"https", "scontent.cdninstagram.com", "", "/v/t51/img.jpg",
                [("stp", "dst-jpg_e35_p640x640")], none⟩
              ["dst-jpg", "e35", "p640x640"] 2 c)))).bind
        (fun c => (fun s => some s) (urlToString (buildCandidateUrl
          ⟨"https", "scontent.cdninstagram.com", "", "/v/t51/img.jpg",
            [("stp", "dst-jpg_e35_p640x640")], none⟩
          ["dst-jpg", "e35", "p640x640"] 2 c))) :=
  c3_first_accepted_candidate (fun _ => none) (fun s => some s) (fun _ => none)
    urlC none _ _ _ _ _ _ (by decide)

/-- C4: the probe loop of `tryUpgradeSize` deduplicates nothing.  With
the efg tag and the caller both reporting 1200×1600, two textually
identical candidate URLs are built and both are probed (count 2 in the
probed-URL trace), and with every candidate redirecting to one final
URL the dimension sniffer is invoked on that final URL once per
candidate — eight times — not at most once.  This contradicts the
claim (and the repository's own completed-issue record 014, which
documents `seen`/`seenResults` sets the shipped source does not
contain). -/
theorem c4_duplicate_probe_eval :
    ((tryUpgradeSizeT (fun _ => some ⟨1200, 1600⟩)
        (fun _ => some "https://scontent.cdninstagram.com/final.jpg")
        (fun _ => some ⟨640, 640⟩) urlC (some ⟨1200, 1600⟩)).2.1.count
        "https://scontent.cdninstagram.com/v/t51/img.jpg?stp=dst-jpg_e35_p1200x1600" = 2)
    ∧ ((tryUpgradeSizeT (fun _ => some ⟨1200, 1600⟩)
        (fun _ => some "https://scontent.cdninstagram.com/final.jpg")
        (fun _ => some ⟨640, 640⟩) urlC (some ⟨1200, 1600⟩)).2.2.count
        "https://scontent.cdninstagram.com/final.jpg" = 8) := by
  exact ⟨by decide, by decide⟩

/-- C2: contrary to the claim, the outbound network functions of
`lib/media.ts` perform no allowlist validation at all.  Evaluating the
embedded `probeImageUrl` shows (a) a response that redirects to the
link-local metadata address is returned as the accepted post-redirect
URL even though `isAllowedProxyUrl` rejects it, and (b) a disallowed
URL handed to the function is fetched (it appears in the fetched-URL
trace) instead of being rejected at entry without network I/O.  The
same absence of a guard holds for `fetchFileSize`,
`probeImageDimensions` and `resolveLegacyImageUrl`, whose bodies go
straight to `fetchWithTimeout`. -/
theorem c2_unguarded_fetch_eval :
    probeImageUrlT (fun _ => some ⟨true, "image/jpeg", "http://169.254.169.254/x"⟩)
        (fun _ => none) "https://scontent.cdninstagram.com/ok.jpg"
      = (some "http://169.254.169.254/x", ["https://scontent.cdninstagram.com/ok.jpg"])
    ∧ isAllowedProxyUrl "http://169.254.169.254/x" = false
    ∧ (probeImageUrlT (fun _ => some ⟨true, "image/jpeg", ""⟩) (fun _ => none)
        "http://169.254.169.254/x").2 = ["http://169.254.169.254/x"] := by
  exact ⟨rfl, by decide, rfl⟩

theorem deleteParamList_filter (k : String) (q : List (String × String)) :
    (deleteParamList k q).filter (fun p => p.1 ≠ k) = q.filter (fun p => p.1 ≠ k) := by
  induction q with
  | nil => rfl
  | cons a q ih =>
    by_cases h : a.1 = k
    · simp [deleteParamList, List.filter, h]
    · simp [deleteParamList, List.filter, h]

theorem setParamList_filter (k v : String) :
    ∀ q : List (String × String),
      (setParamList k v q).filter (fun p => p.1 ≠ k) = q.filter (fun p => p.1 ≠ k)
  | [] => by simp [setParamList]
  | a :: q => by
    obtain ⟨a1, a2⟩ := a
    by_cases h : a1 = k
    · subst h
      simp [setParamList, List.filter]
    · simpa [setParamList, List.filter, h] using setParamList_filter k v q

/-- C10: for every parsed URL, token list, size-token index and
candidate (the removal sentinel included), `buildCandidateUrl` changes
at most the `stp` query parameter: scheme, host, port, path, fragment
and the ordered list of all other query parameters (the CDN signature
parameters among them) are returned unchanged. -/
theorem c10_buildCandidateUrl_frame (u : UrlRec) (tokens : List String)
    (sizeIndex : Nat) (candidate : Candidate) :
    (buildCandidateUrl u tokens sizeIndex candidate).scheme = u.scheme
    ∧ (buildCandidateUrl u tokens sizeIndex candidate).host = u.host
    ∧ (buildCandidateUrl u tokens sizeIndex candidate).port = u.port
    ∧ (buildCandidateUrl u tokens sizeIndex candidate).path = u.path
    ∧ (buildCandidateUrl u tokens sizeIndex candidate).fragment = u.fragment
    ∧ (buildCandidateUrl u tokens sizeIndex candidate).query.filter (fun p => p.1 ≠ "stp")
        = u.query.filter (fun p => p.1 ≠ "stp") := by
  cases candidate with
  | remove =>
    simp only [buildCandidateUrl]
    split
    · exact ⟨rfl, rfl, rfl, rfl, rfl, setParamList_filter _ _ _⟩
    · exact ⟨rfl, rfl, rfl, rfl, rfl, deleteParamList_filter _ _⟩
  | dims w h pfx =>
    simp only [buildCandidateUrl]
    exact ⟨rfl, rfl, rfl, rfl, rfl, setParamList_filter _ _ _⟩

/-- C8: `isAllowedProxyUrl` is total — any input the URL parser rejects
yields `false` rather than an exception (the characterizing equivalence
has no other escape) — and it returns `true` exactly when the input
parses and its lowercased hostname is `instagram.com` or ends in
`.instagram.com`, `.cdninstagram.com` or `.fbcdn.net`; in particular it
rejects the link-local metadata URL and a non-URL string, and accepts a
subdomain of each configured suffix. -/
theorem c8_allowlist_characterization :
    (∀ s, isAllowedProxyUrl s = true ↔
      ∃ u, parseUrl s = some u ∧
        (lcStr u.host = "instagram.com" ∨
         strEndsWith (lcStr u.host) ".instagram.com" = true ∨
         strEndsWith (lcStr u.host) ".cdninstagram.com" = true ∨
         strEndsWith (lcStr u.host) ".fbcdn.net" = true))
    ∧ isAllowedProxyUrl "http://169.254.169.254/x" = false
    ∧ isAllowedProxyUrl "https://sub.instagram.com/y" = true
    ∧ isAllowedProxyUrl "https://sub.cdninstagram.com/y" = true
    ∧ isAllowedProxyUrl "https://sub.fbcdn.net/y" = true
    ∧ isAllowedProxyUrl "https://instagram.com/p/x" = true
    ∧ isAllowedProxyUrl "not a url" = false := by
  refine ⟨fun s => ?_, by decide, by decide, by decide, by decide, by decide, by decide⟩
  cases hp : parseUrl s with
  | none => simp [isAllowedProxyUrl, hp]
  | some u =>
    simp only [isAllowedProxyUrl, hp, Bool.or_eq_true, beq_iff_eq,
      Option.some.injEq, exists_eq_left']
    tauto

theorem extractNodeList_eq_flatMap (iv : String → Dims → Option Dims) :
    ∀ l : List MNode, extractNodeList iv l = l.flatMap (extractFromMediaNode iv)
  | [] => by simp [extractNodeList]
  | n :: ns => by
    simp [extractNodeList, extractNodeList_eq_flatMap iv ns]

theorem extractLeaf_length (iv : String → Dims → Option Dims) (leaf : LeafData) :
    (extractLeaf iv leaf).length = if leafAssetUrl leaf = "" then 0 else 1 := by
  simp only [extractLeaf, leafAssetUrl]
  split <;> split <;> simp

mutual

theorem extractFromMediaNode_length (iv : String → Dims → Option Dims) :
    ∀ n : MNode, (extractFromMediaNode iv n).length = resolvableLeafCount n
  | MNode.mk (some edges) _ _ => by
    simp only [extractFromMediaNode, resolvableLeafCount]
    exact extractNodeList_length iv edges
  | MNode.mk none (some children) _ => by
    simp only [extractFromMediaNode, resolvableLeafCount]
    exact extractNodeList_length iv children
  | MNode.mk none none leaf => by
    simp only [extractFromMediaNode, resolvableLeafCount]
    exact extractLeaf_length iv leaf

theorem extractNodeList_length (iv : String → Dims → Option Dims) :
    ∀ l : List MNode, (extractNodeList iv l).length = resolvableLeafCountList l
  | [] => rfl
  | n :: ns => by
    simp only [extractNodeList, resolvableLeafCountList, List.length_append]
    rw [extractFromMediaNode_length iv n, extractNodeList_length iv ns]

end

/-- C9: for a node carrying either carousel children shape,
`extractFromMediaNode` returns exactly the concatenation, in child
order, of its recursive results on the children; and for every node the
number of items returned equals the number of leaf descendants whose
asset URL resolves to a non-empty string — no resolvable child is
dropped and no item is fabricated. -/
theorem c9_carousel_flatten (iv : String → Dims → Option Dims) :
    (∀ (edges : List MNode) (carousel : Option (List MNode)) (leaf : LeafData),
       extractFromMediaNode iv (MNode.mk (some edges) carousel leaf) =
         edges.flatMap (extractFromMediaNode iv))
    ∧ (∀ (children : List MNode) (leaf : LeafData),
       extractFromMediaNode iv (MNode.mk none (some children) leaf) =
         children.flatMap (extractFromMediaNode iv))
    ∧ (∀ n : MNode, (extractFromMediaNode iv n).length = resolvableLeafCount n) := by
  refine ⟨fun edges carousel leaf => ?_, fun children leaf => ?_,
    fun n => extractFromMediaNode_length iv n⟩
  · simp only [extractFromMediaNode]
    exact extractNodeList_eq_flatMap iv edges
  · simp only [extractFromMediaNode]
    exact extractNodeList_eq_flatMap iv children

/-! ## Cascade lemmas and fixtures -/

theorem extractFromHtmlJsonM_ne_nil {env : CascadeEnv} {blobs : List Blob}
    {items : List MediaItem}
    (h : extractFromHtmlJsonM env blobs = some items) : items ≠ [] := by
  obtain ⟨b, _, hb⟩ := List.exists_of_findSome?_eq_some h
  cases hm : extractShortcodeMedia b with
  | none => rw [hm] at hb; exact absurd hb (by simp)
  | some media =>
    rw [hm] at hb
    by_cases he : (extractFromMediaNode env.inferVid media).isEmpty
    · simp [he] at hb
    · simp only [he, Bool.false_eq_true, if_false, Option.some.injEq] at hb
      subst hb
      intro hnil
      exact he (by simpa using List.map_eq_nil_iff.mp hnil)

/-- A single-image leaf fixture whose only usable field is
`display_url`. -/
def leafFix : LeafData :=
  ⟨false, none, none, none, none, none, none,
    some "https://scontent.cdninstagram.com/a.jpg", none, none, none, none⟩

def nodeFix : MNode := MNode.mk none none leafFix

def blobFix : Blob := ⟨some nodeFix, none, none, none, none, none, none⟩

/-- The `MediaItem` the fixture leaf extracts to. -/
def itemFix : MediaItem :=
  ⟨MediaType.image, "https://scontent.cdninstagram.com/a.jpg",
    "https://scontent.cdninstagram.com/a.jpg", 0, 0, 0⟩

/-- Scenario-C environment: strategy 1 parses no JSON, strategy 2's
HTML contains a script blob yielding one item, strategy 3's fetch would
even transport-fail if it were (wrongly) attempted. -/
def envC : CascadeEnv where
  inferVid := fun _ _ => none
  fetch1 := FetchOutcome.success "{}"
  parseJson := fun _ => none
  fetch2 := FetchOutcome.success "html2"
  blobsOf := fun h => if h = "html2" then [blobFix] else []
  fetch3 := FetchOutcome.transportFail
  metaOf := fun _ => []
  legacy := none
  enrich := fun item => item

/-- Exhausted-cascade environment: every strategy yields zero items. -/
def envE : CascadeEnv where
  inferVid := fun _ _ => none
  fetch1 := FetchOutcome.transportFail
  parseJson := fun _ => none
  fetch2 := FetchOutcome.success "h"
  blobsOf := fun _ => []
  fetch3 := FetchOutcome.success "e"
  metaOf := fun _ => []
  legacy := none
  enrich := fun item => item

/-- Strategy-2-fails environment: strategy 1 yields nothing, strategy
2's fetch settles with HTTP 500, and strategy 3's embed page would
yield one item if it were reached. -/
def env5cx : CascadeEnv where
  inferVid := fun _ _ => none
  fetch1 := FetchOutcome.transportFail
  parseJson := fun _ => none
  fetch2 := FetchOutcome.httpError 500
  blobsOf := fun h => if h = "embedhtml" then [blobFix] else []
  fetch3 := FetchOutcome.success "embedhtml"
  metaOf := fun _ => []
  legacy := none
  enrich := fun item => item

/-- Like `env5cx` but with strategy 2 returning HTTP 500 as the fixture
for the amended C5 statement's witness. -/
def env500 : CascadeEnv where
  inferVid := fun _ _ => none
  fetch1 := FetchOutcome.transportFail
  parseJson := fun _ => none
  fetch2 := FetchOutcome.httpError 500
  blobsOf := fun _ => []
  fetch3 := FetchOutcome.success "e"
  metaOf := fun _ => []
  legacy := none
  enrich := fun item => item

theorem fetchPostMediaT_trace_ordered (env : CascadeEnv) :
    (fetchPostMediaT env).2 <+: [1, 2, 3, 4] := by
  by_cases h1 : (strat1Items env).isEmpty
  · cases hf2 : fetchHtmlM env.fetch2 with
    | error e =>
      have hv : (fetchPostMediaT env).2 = [1, 2] := by
        simp [fetchPostMediaT, h1, hf2]
      rw [hv]; exact ⟨[3, 4], rfl⟩
    | ok html =>
      cases hx2 : extractFromHtmlJsonM env (env.blobsOf html) with
      | some items =>
        have hv : (fetchPostMediaT env).2 = [1, 2] := by
          simp [fetchPostMediaT, h1, hf2, hx2]
        rw [hv]; exact ⟨[3, 4], rfl⟩
      | none =>
        cases hf3 : fetchHtmlM env.fetch3 with
        | error e =>
          have hv : (fetchPostMediaT env).2 = [1, 2, 3] := by
            simp [fetchPostMediaT, h1, hf2, hx2, hf3]
          rw [hv]; exact ⟨[4], rfl⟩
        | ok ehtml =>
          cases hx3 : extractFromHtmlJsonM env (env.blobsOf ehtml) with
          | some items =>
            have hv : (fetchPostMediaT env).2 = [1, 2, 3] := by
              simp [fetchPostMediaT, h1, hf2, hx2, hf3, hx3]
            rw [hv]; exact ⟨[4], rfl⟩
          | none =>
            have hv : (fetchPostMediaT env).2 = [1, 2, 3, 4] := by
              by_cases hm : (env.metaOf html).isEmpty <;>
                simp [fetchPostMediaT, h1, hf2, hx2, hf3, hx3, hm]
            rw [hv]
  · have hv : (fetchPostMediaT env).2 = [1] := by
      simp [fetchPostMediaT, h1]
    rw [hv]; exact ⟨[2, 3, 4], rfl⟩

/-- C5 counterexample: a non-success HTTP status other than 401/403
inside strategy 2 is NOT swallowed — `fetchHtml` throws a generic
`UpstreamError` which propagates out of `fetchPostMedia` — so strategy 3
(whose embed page here would have yielded an item) never runs, and the
trace stops at strategy 2.  Strategy-level transport failures in
strategies 2/3 likewise propagate.  This falsifies the claim that every
non-401/403 fetch failure is treated as "strategy yielded nothing". -/
theorem c5_counterexample :
    fetchPostMediaT env5cx =
      (Except.error (PipeError.upstream 500 "Failed to fetch Instagram content."),
        [1, 2])
    ∧ extractFromHtmlJsonM env5cx (env5cx.blobsOf "embedhtml") = some [itemFix] := by
  exact ⟨rfl, rfl⟩

/-- C5 (amended): strategy 1 (`tryFetchJson`) swallows every fetch
failure — including 401/403, which it does NOT surface — and the
cascade proceeds identically whatever the failure mode was; strategies
2 and 3 (`fetchHtml`) surface every fetch failure immediately: 401/403
as the distinguished blocked `UpstreamError`, any other non-success
status as a generic `UpstreamError`, and a transport failure as the
propagated transport error, with no later strategy attempted. -/
theorem c5_failure_semantics (env : CascadeEnv) (s : Nat) :
    (fetchPostMediaT { env with fetch1 := FetchOutcome.httpError s }
       = fetchPostMediaT { env with fetch1 := FetchOutcome.transportFail })
    ∧ (strat1Items env = [] → env.fetch2 = FetchOutcome.httpError s →
       (fetchPostMediaT env).1 = Except.error (PipeError.upstream s
         (if s = 401 ∨ s = 403 then
            "Instagram temporarily blocked this request. Try again later."
          else "Failed to fetch Instagram content.")))
    ∧ (strat1Items env = [] → env.fetch2 = FetchOutcome.transportFail →
       (fetchPostMediaT env).1 = Except.error PipeError.transport)
    ∧ (∀ html, strat1Items env = [] → env.fetch2 = FetchOutcome.success html →
       extractFromHtmlJsonM env (env.blobsOf html) = none →
       env.fetch3 = FetchOutcome.httpError s →
       (fetchPostMediaT env).1 = Except.error (PipeError.upstream s
         (if s = 401 ∨ s = 403 then
            "Instagram temporarily blocked this request. Try again later."
          else "Failed to fetch Instagram content.")))
    ∧ (∀ html, strat1Items env = [] → env.fetch2 = FetchOutcome.success html →
       extractFromHtmlJsonM env (env.blobsOf html) = none →
       env.fetch3 = FetchOutcome.transportFail →
       (fetchPostMediaT env).1 = Except.error PipeError.transport) := by
  refine ⟨rfl, fun h1 h2 => ?_, fun h1 h2 => ?_, fun html h1 h2 h3 h4 => ?_,
    fun html h1 h2 h3 h4 => ?_⟩
  · by_cases hs : s = 401 ∨ s = 403 <;>
      simp [fetchPostMediaT, fetchHtmlM, h1, h2, hs]
  · simp [fetchPostMediaT, fetchHtmlM, h1, h2]
  · by_cases hs : s = 401 ∨ s = 403 <;>
      simp [fetchPostMediaT, fetchHtmlM, h1, h2, h3, h4, hs]
  · simp [fetchPostMediaT, fetchHtmlM, h1, h2, h3, h4]

theorem c5_witness :
    (fetchPostMediaT env500).1 =
      Except.error (PipeError.upstream 500 "Failed to fetch Instagram content.") := by
  simpa using (c5_failure_semantics env500 500).2.1 rfl rfl

/-- C6: the four strategies run strictly in order — the strategy trace
is always a prefix of `[1, 2, 3, 4]` — and the first strategy that
produces at least one normalized item ends the cascade with exactly
that strategy's items: strategy 1's (enriched) items with trace `[1]`,
strategy 2's with trace `[1, 2]`, strategy 3's with trace `[1, 2, 3]`;
a strategy producing zero items advances to the next. -/
theorem c6_cascade_order (env : CascadeEnv) :
    (fetchPostMediaT env).2 <+: [1, 2, 3, 4]
    ∧ (strat1Items env ≠ [] →
       fetchPostMediaT env =
         (Except.ok ((strat1Items env).map env.enrich), [1]))
    ∧ (∀ html items, strat1Items env = [] →
       env.fetch2 = FetchOutcome.success html →
       extractFromHtmlJsonM env (env.blobsOf html) = some items →
       fetchPostMediaT env = (Except.ok items, [1, 2]))
    ∧ (∀ html ehtml items, strat1Items env = [] →
       env.fetch2 = FetchOutcome.success html →
       extractFromHtmlJsonM env (env.blobsOf html) = none →
       env.fetch3 = FetchOutcome.success ehtml →
       extractFromHtmlJsonM env (env.blobsOf ehtml) = some items →
       fetchPostMediaT env = (Except.ok items, [1, 2, 3])) := by
  refine ⟨fetchPostMediaT_trace_ordered env, fun h1 => ?_,
    fun html items h1 h2 h3 => ?_, fun html ehtml items h1 h2 h3 h4 h5 => ?_⟩
  · simp [fetchPostMediaT, h1]
  · simp [fetchPostMediaT, fetchHtmlM, h1, h2, h3]
  · simp [fetchPostMediaT, fetchHtmlM, h1, h2, h3, h4, h5]

theorem c6_witness :
    fetchPostMediaT envC = (Except.ok [itemFix], [1, 2]) :=
  (c6_cascade_order envC).2.2.1 "html2" [itemFix] rfl rfl rfl

/-- C7: `fetchPostMedia` never reports success with an empty item list
— every `ok` result is non-empty — and when all four strategies yield
zero items the run ends with the distinguished "no media found"
error. -/
theorem c7_no_empty_success (env : CascadeEnv) :
    (∀ items, (fetchPostMediaT env).1 = Except.ok items → items ≠ [])
    ∧ (strat1Items env = [] →
       ∀ html ehtml, env.fetch2 = FetchOutcome.success html →
         env.fetch3 = FetchOutcome.success ehtml →
         extractFromHtmlJsonM env (env.blobsOf html) = none →
         extractFromHtmlJsonM env (env.blobsOf ehtml) = none →
         env.metaOf html = [] →
         (fetchPostMediaT env).1 = Except.error PipeError.noMedia) := by
  constructor
  · intro items h
    by_cases h1 : (strat1Items env).isEmpty
    · cases hf2 : fetchHtmlM env.fetch2 with
      | error e =>
        have hv : (fetchPostMediaT env).1 = Except.error e := by
          simp [fetchPostMediaT, h1, hf2]
        rw [h] at hv
        exact absurd hv (by simp)
      | ok html =>
        cases hx2 : extractFromHtmlJsonM env (env.blobsOf html) with
        | some items2 =>
          have hv : (fetchPostMediaT env).1 = Except.ok items2 := by
            simp [fetchPostMediaT, h1, hf2, hx2]
          rw [h] at hv
          injection hv with hv
          subst hv
          exact extractFromHtmlJsonM_ne_nil hx2
        | none =>
          cases hf3 : fetchHtmlM env.fetch3 with
          | error e =>
            have hv : (fetchPostMediaT env).1 = Except.error e := by
              simp [fetchPostMediaT, h1, hf2, hx2, hf3]
            rw [h] at hv
            exact absurd hv (by simp)
          | ok ehtml =>
            cases hx3 : extractFromHtmlJsonM env (env.blobsOf ehtml) with
            | some items3 =>
              have hv : (fetchPostMediaT env).1 = Except.ok items3 := by
                simp [fetchPostMediaT, h1, hf2, hx2, hf3, hx3]
              rw [h] at hv
              injection hv with hv
              subst hv
              exact extractFromHtmlJsonM_ne_nil hx3
            | none =>
              by_cases hm : (env.metaOf html).isEmpty
              · have hv : (fetchPostMediaT env).1 = Except.error PipeError.noMedia := by
                  simp [fetchPostMediaT, h1, hf2, hx2, hf3, hx3, hm]
                rw [h] at hv
                exact absurd hv (by simp)
              · have hv : (fetchPostMediaT env).1 =
                    Except.ok ((strat4Items env html).map env.enrich) := by
                  simp [fetchPostMediaT, h1, hf2, hx2, hf3, hx3, hm]
                rw [h] at hv
                injection hv with hv
                subst hv
                have h4 : strat4Items env html ≠ [] := by
                  unfold strat4Items
                  rcases hml : env.metaOf html with _ | ⟨a, l⟩
                  · exact absurd (by simp [hml]) hm
                  · rcases l with _ | ⟨b, l2⟩
                    · by_cases ht : a.type = MediaType.image
                      · simp only [ht, if_true]
                        cases env.legacy <;> simp
                      · simp [ht]
                    · simp
                intro hnil
                exact h4 (List.map_eq_nil_iff.mp hnil)
    · have hv : (fetchPostMediaT env).1 =
          Except.ok ((strat1Items env).map env.enrich) := by
        simp [fetchPostMediaT, h1]
      rw [h] at hv
      injection hv with hv
      subst hv
      intro hnil
      exact h1 (by simpa using List.map_eq_nil_iff.mp hnil)
  · intro h1 html ehtml h2 h3 h4 h5 h6
    simp [fetchPostMediaT, fetchHtmlM, h1, h2, h3, h4, h5, h6]

theorem c7_witness :
    ([itemFix] ≠ ([] : List MediaItem))
    ∧ (fetchPostMediaT envE).1 = Except.error PipeError.noMedia :=
  ⟨(c7_no_empty_success envC).1 [itemFix] rfl,
   (c7_no_empty_success envE).2 rfl "h" "e" rfl rfl rfl rfl rfl⟩

end IGDL
